import Mathlib

/-!
Verification of `state_re.py` (history-lab/state_names): a shallow embedding of
the consular-data text cleaner.  Strings are modelled as `List Char` (the source
runs on Python 2 byte strings; every character class below is the ASCII class
the `re` module uses on byte strings).  Python dicts with optional keys become
structures with `Option` fields; an uncaught exception is modelled as `none` in
an `Option` result.  The four module-level compiled regexes are hand-compiled
into executable matchers, each documented with the derivation from the pattern
text and Python's leftmost, first-alternative, lazy/greedy backtracking
semantics.
-/

namespace StateRe

/-- Character strings of the embedding: Python 2 byte strings as lists of chars. -/
abbrev Str := List Char

/-- Python `\d` on byte strings: the ASCII digits. -/
def isDigitC (c : Char) : Bool := '0' ≤ c && c ≤ '9'

/-- Python `\s` on byte strings: space, tab, newline, carriage return,
vertical tab, form feed. -/
def isWS (c : Char) : Bool :=
  c = ' ' || c = '\t' || c = '\n' || c = '\r' || c = '\x0b' || c = '\x0c'

/-- Python `\w` on byte strings (no LOCALE/UNICODE flag): letters, digits, underscore. -/
def isWordC (c : Char) : Bool :=
  ('a' ≤ c && c ≤ 'z') || ('A' ≤ c && c ≤ 'Z') || isDigitC c || c = '_'

/-- The class `[^0-9,(]` of `full_position_parser`. -/
def isTitleChar (c : Char) : Bool := !(isDigitC c || c = ',' || c = '(')

/-- `full_position_parser = re.compile(r"([^0-9,(]*)")`, used via `.match`:
the pattern is a single greedy star of a character class anchored at the start,
so it always succeeds and group 1 is the longest initial run of characters that
are not digits, commas or `(` (possibly empty).  We keep the `Option` so the
call site's `if(full_title)` guard can be translated literally. -/
def fullPositionMatch (t : Str) : Option Str :=
  some (t.takeWhile isTitleChar)

/-- The class `[^0-9,]` of `name_parser`'s `first_name` group. -/
def isFirstNameChar (c : Char) : Bool := !(isDigitC c || c = ',')

/-- `name_parser = re.compile(r"(?P<last_name>[^,]*),\s(?P<first_name>[^0-9,]*)")`,
used via `.match` (anchored at the start, prefix match).  `[^,]*` is greedy but
cannot cross a comma, so it matches exactly the text before the first comma and
no backtracking alternative exists; the match succeeds iff the string contains a
comma and the character right after the first comma is whitespace.  `last_name`
is the text before the first comma; `first_name` is the longest run of
non-digit, non-comma characters after that whitespace character.
Returns `some (last_name, first_name)` on a match. -/
def nameParserMatch (s : Str) : Option (Str × Str) :=
  let lastName := s.takeWhile (fun c => !(c = ','))
  match s.dropWhile (fun c => !(c = ',')) with
  | _ :: c :: rest =>
      if isWS c then some (lastName, rest.takeWhile isFirstNameChar) else none
  | _ => none

/-- Four ASCII digits at the head of the string: the semantics of `\d{4}`.
Returns the four digits and the remainder. -/
def digits4 : Str → Option (Str × Str)
  | a :: b :: c :: d :: rest =>
      if isDigitC a && isDigitC b && isDigitC c && isDigitC d then
        some ([a, b, c, d], rest)
      else none
  | _ => none

/-- `[^()]*?\)`: the lazy star cannot cross a parenthesis, so the tail matches
iff the first parenthesis character in the remaining text exists and is `)`. -/
def closeOk : Str → Bool
  | [] => false
  | c :: rest => if c = ')' then true else if c = '(' then false else closeOk rest

/-- `[^()-]*?-`: the lazy star cannot cross `-`, `(` or `)`, so this
deterministically consumes up to the first `-`, failing if a parenthesis or the
end of the text is reached first.  Returns the text after the `-`. -/
def toHyphen : Str → Option Str
  | [] => none
  | c :: rest =>
      if c = '-' then some rest
      else if c = '(' || c = ')' then none
      else toHyphen rest

/-- `[^()-]*?(?P<year_to>\d{4})[^()]*?\)` of `year_parser`'s first alternative:
lazy scan for the earliest position (not crossing `(`, `)` or `-`) holding four
digits after which `[^()]*?\)` completes; if the close fails the star extends
past the first digit (digits are permitted in `[^()-]`), i.e. we advance one
character and retry, exactly the backtracking order of the pattern. -/
def yearToFind : Str → Option Str
  | [] => none
  | c :: rest =>
      if c = '(' || c = ')' || c = '-' then none
      else
        match digits4 (c :: rest) with
        | some (d, after) => if closeOk after then some d else yearToFind rest
        | none => yearToFind rest

/-- The tail `[^()-]*?-[^()-]*?(?P<year_to>\d{4})[^()]*?\)` of `year_parser`'s
first alternative, applied after the `year_from` digits. -/
def yearRangeTail (r : Str) : Option Str :=
  match toHyphen r with
  | some afterHyphen => yearToFind afterHyphen
  | none => none

/-- Body of `year_parser`'s first alternative after the opening `(`:
`[^()]*?(?P<year_from>\d{4})` then `yearRangeTail`.  The lazy star picks the
smallest prefix (never crossing a parenthesis) followed by four digits such
that the rest of the alternative completes; when the tail fails, the star
extends over the current character (including digits) and we retry one
character later.  Returns `(year_from, year_to)`. -/
def yearAlt1 : Str → Option (Str × Str)
  | [] => none
  | c :: rest =>
      if c = '(' || c = ')' then none
      else
        match digits4 (c :: rest) with
        | some (d, after) =>
            match yearRangeTail after with
            | some d2 => some (d, d2)
            | none => yearAlt1 rest
        | none => yearAlt1 rest

/-- Body of `year_parser`'s second alternative after the opening `(`:
`[^()]*?(?P<complex_year>\d{4})[^()]*?\)`, with the same lazy-first order as
`yearAlt1`. -/
def yearAlt2 : Str → Option Str
  | [] => none
  | c :: rest =>
      if c = '(' || c = ')' then none
      else
        match digits4 (c :: rest) with
        | some (d, after) => if closeOk after then some d else yearAlt2 rest
        | none => yearAlt2 rest

/-- Body of `year_parser`'s third alternative after the opening `(`:
`(?P<simple_year>\d{4})\)`: exactly four digits immediately followed by `)`. -/
def yearAlt3 (r : Str) : Option Str :=
  match digits4 r with
  | some (d, after) =>
      match after with
      | ')' :: _ => some d
      | _ => none
  | none => none

/-- Named groups of `year_parser`, mirroring `match.group(name)`:
`none` is a group that did not participate in the match. -/
structure YearGroups where
  year_from : Option Str
  year_to : Option Str
  complex_year : Option Str
  simple_year : Option Str
deriving DecidableEq, Repr

/-- One attempt of the full `year_parser` pattern at the current position
(alternatives in the pattern's order).  All three alternatives begin with a
literal `(`. -/
def yearTryAt : Str → Option YearGroups
  | [] => none
  | c :: rest =>
      if c = '(' then
        match yearAlt1 rest with
        | some (d1, d2) => some ⟨some d1, some d2, none, none⟩
        | none =>
            match yearAlt2 rest with
            | some d => some ⟨none, none, some d, none⟩
            | none =>
                match yearAlt3 rest with
                | some d => some ⟨none, none, none, some d⟩
                | none => none
      else none

/-- `year_parser.search(text)`: try the whole pattern at position 0, 1, ...;
the leftmost position with a match wins, and at that position the alternatives
are tried in the pattern's order (`yearTryAt`). -/
def yearSearch : Str → Option YearGroups
  | [] => none
  | c :: rest =>
      match yearTryAt (c :: rest) with
      | some g => some g
      | none => yearSearch rest

/-- The class `(?:^|,|\s)` restricted to its character alternatives. -/
def isCWS (c : Char) : Bool := c = ',' || isWS c

/-- Head of the string is a comma-or-whitespace character. -/
def cwsHead : Str → Bool
  | c :: _ => isCWS c
  | [] => false

/-- `(?:\(|\)|$|\d)`, the last element of `location_parser`'s first
alternative.  `$` (no MULTILINE) matches at the end of the string or just
before a trailing newline. -/
def locTail2 : Str → Bool
  | [] => true
  | c :: rest => c = '(' || c = ')' || (c = '\n' && rest.isEmpty) || isDigitC c

/-- `(?:$|\n|\s|\t)(?:\(|\)|$|\d)`, the terminator after `open_location`'s
word.  The `$` route (consuming nothing) succeeds exactly on the empty
remainder or a lone trailing newline, and in both cases the following
`locTail2` also succeeds, which coincides with the single-whitespace route;
so the terminator holds iff the remainder is empty, or starts with a
whitespace character after which `locTail2` holds. -/
def locTerm : Str → Bool
  | [] => true
  | c :: rest => isWS c && locTail2 rest

/-- First alternative of `location_parser`:
`(?:^|,|\s)+?(?P<open_location>\w+)(?:$|\n|\s|\t)(?:\(|\)|$|\d)` tried at the
current suffix (`isStart` records whether this suffix is the whole string, so
that `^` can match).  The lazy repeat consumes comma/whitespace characters one
at a time (or nothing, via `^` at the start); since those characters are never
word characters, the only candidate start for `\w+` is the end of the
comma/whitespace run, and the greedy `\w+` must take the maximal word run
(a shorter run would leave a word character where only whitespace, `$` or a
boundary character may stand).  Returns the captured `open_location`. -/
def locAlt1 (isStart : Bool) (r : Str) : Option Str :=
  if isStart || cwsHead r then
    let rest := r.dropWhile isCWS
    let word := rest.takeWhile isWordC
    let after := rest.dropWhile isWordC
    if !word.isEmpty && locTerm after then some word else none
  else none

/-- Head of the string is a closing parenthesis. -/
def closeParenHead : Str → Bool
  | ')' :: _ => true
  | _ => false

/-- Second alternative of `location_parser`:
`\((?P<enclosed_location>\w+)\)` at the current suffix. -/
def locAlt2 : Str → Option Str
  | [] => none
  | c :: rest =>
      if c = '(' then
        let word := rest.takeWhile isWordC
        let after := rest.dropWhile isWordC
        if !word.isEmpty && closeParenHead after then some word else none
      else none

/-- Named groups of `location_parser`. -/
structure LocGroups where
  open_location : Option Str
  enclosed_location : Option Str
deriving DecidableEq, Repr

/-- `location_parser.search`: leftmost position first; at each position the
`open_location` alternative is tried before the `enclosed_location` one
(the pattern's alternation order). -/
def locSearchAux : Bool → Str → Option LocGroups
  | isStart, [] =>
      match locAlt1 isStart [] with
      | some w => some ⟨some w, none⟩
      | none =>
          match locAlt2 [] with
          | some w => some ⟨none, some w⟩
          | none => none
  | isStart, c :: rest =>
      match locAlt1 isStart (c :: rest) with
      | some w => some ⟨some w, none⟩
      | none =>
          match locAlt2 (c :: rest) with
          | some w => some ⟨none, some w⟩
          | none => locSearchAux false rest

/-- `location_parser.search(text)` starting at the beginning of `text`. -/
def locSearch (s : Str) : Option LocGroups := locSearchAux true s

/-- Python truthiness of `match.group(name)`: `None` is falsy, a string is
truthy iff it is non-empty. -/
def pyTruthy : Option Str → Bool
  | some s => !s.isEmpty
  | none => false

/-- The separator `cleanPositions` passes to `str.split` at line 114:
`text.split(r'[^(),]*?,')` is the *plain string* `split` method of Python 2
byte strings, so the raw-string regex source is used as a literal separator. -/
def sepLit : Str := "[^(),]*?,".toList

/-- First occurrence of a (non-empty) separator: `some (before, after)` with
the input equal to `before ++ sep ++ after`, splitting at the leftmost
occurrence; `none` when the separator does not occur. -/
def splitFirst (sep : Str) : Str → Option (Str × Str)
  | [] => none
  | c :: rest =>
      if sep.isPrefixOf (c :: rest) then some ([], (c :: rest).drop sep.length)
      else
        match splitFirst sep rest with
        | some (p, r) => some (c :: p, r)
        | none => none

/-- Lines 112-121 of `cleanPositions`: the title and the working text.
`split_str = text.split(r'[^(),]*?,')` splits on the literal string `sepLit`;
`split_str[0] != text` holds exactly when the separator occurs (the first
segment is then strictly shorter than `text` — we keep the comparison
literally).  In that branch the title is `split_str[0]` and the working text
becomes `split_str[1]`, the segment between the first and second occurrence of
the separator (or everything after the first occurrence if it occurs once).
Otherwise `full_position_parser.match` is used (it always succeeds; the
`if(full_title)` guard is kept literally) and the working text stays the whole
original string. -/
def titleAndText (text : Str) : Option Str × Str :=
  match splitFirst sepLit text with
  | some (p0, r) =>
      if p0 = text then
        (match fullPositionMatch text with
         | some g => some g
         | none => none, text)
      else
        (some p0,
         match splitFirst sepLit r with
         | some (q, _) => q
         | none => r)
  | none =>
      (match fullPositionMatch text with
       | some g => some g
       | none => none, text)

/-- The defect-marker substring tested by `scrubBadTitles`. -/
def noLabelMarker : Str := "no-label".toList

/-- The sentinel `scrubBadTitles` substitutes. -/
def noTitleSentinel : Str := "NO POSITION TITLE AVAILABLE".toList

/-- Python's `pat in s` on strings: `pat` occurs as a contiguous substring. -/
def containsSub (pat : Str) : Str → Bool
  | [] => pat.isEmpty
  | c :: rest => pat.isPrefixOf (c :: rest) || containsSub pat rest

/-- `scrubBadTitles`: `if 'no-label' in position['title']` — a literal,
case-sensitive substring test — replaces the whole title with the sentinel. -/
def scrubTitle (t : Str) : Str :=
  if containsSub noLabelMarker t then noTitleSentinel else t

/-- One `position` dict of the cleaned output: `raw_position` is always set
(line 109); every other key is optional. -/
structure CleanPos where
  raw_position : Str
  title : Option Str := none
  year_from : Option Str := none
  year_to : Option Str := none
  year_single : Option Str := none
  year_text : Option Str := none
  location : Option Str := none
  loc_text : Option Str := none
deriving DecidableEq, Repr

/-- Lines 128-140 of `cleanPositions`: the year fields, from
`year_parser.search(text)` and the truthiness of its named groups. -/
def yearFields (text : Str) (cp : CleanPos) : CleanPos :=
  match yearSearch text with
  | some y =>
      if pyTruthy y.year_from && pyTruthy y.year_to then
        { cp with year_from := y.year_from, year_to := y.year_to }
      else if pyTruthy y.simple_year then
        { cp with year_single := y.simple_year }
      else if pyTruthy y.complex_year then
        { cp with year_single := y.complex_year }
      else
        { cp with year_text := some text }
  | none => { cp with year_text := some text }

/-- Lines 144-153 of `cleanPositions`: the location fields, from
`location_parser.search(text)` and the truthiness of its named groups. -/
def locFields (text : Str) (cp : CleanPos) : CleanPos :=
  match locSearch text with
  | some l =>
      if pyTruthy l.enclosed_location then
        { cp with location := l.enclosed_location }
      else if pyTruthy l.open_location then
        { cp with location := l.open_location }
      else
        { cp with loc_text := some text }
  | none => { cp with loc_text := some text }

/-- The loop body of `cleanPositions` for one raw position string.
`scrubBadTitles` reads `position['title']` unconditionally; the key is always
present at that point (`titleAndText` always returns `some` — see
`titleAndText_fst_isSome`), so mapping `scrubTitle` over the `Option` is
exact. -/
def cleanPosition (p : Str) : CleanPos :=
  let tt := titleAndText p
  let text := tt.2
  let title := tt.1.map scrubTitle
  locFields text (yearFields text { raw_position := p, title := title })

/-- Number of keys of the `clean_pos` dict, for the `len(clean_pos) > 0`
guard at line 156 (`raw_position` is always a key). -/
def cpLen (cp : CleanPos) : Nat :=
  1 + (if cp.title.isSome then 1 else 0) + (if cp.year_from.isSome then 1 else 0) +
    (if cp.year_to.isSome then 1 else 0) + (if cp.year_single.isSome then 1 else 0) +
    (if cp.year_text.isSome then 1 else 0) + (if cp.location.isSome then 1 else 0) +
    (if cp.loc_text.isSome then 1 else 0)

/-- `cleanPositions`: one pass over the raw position strings; an entry is
appended when `len(clean_pos) > 0` (kept literally; `raw_position` makes the
length at least 1). -/
def cleanPositions : List Str → List CleanPos
  | [] => []
  | p :: rest =>
      let cp := cleanPosition p
      if cpLen cp > 0 then cp :: cleanPositions rest
      else cleanPositions rest

/-- `cleanName`: returns the dict of both name groups on a match and the empty
dict (`none`) otherwise, as `some (last_name, first_name)`. -/
def cleanName (name : Str) : Option (Str × Str) := nameParserMatch name

/-- One raw person record of the scraped input. -/
structure RawPerson where
  name : Str
  positions : List Str
deriving DecidableEq, Repr

/-- One cleaned person dict: the name keys are set only when
`len(clean_names) > 0`, i.e. when the name pattern matched. -/
structure CleanPerson where
  first_name : Option Str := none
  last_name : Option Str := none
  positions : List CleanPos := []
deriving DecidableEq, Repr

/-- `cleanPerson`: name fields from `cleanName`, positions always set. -/
def cleanPerson (person : RawPerson) : CleanPerson :=
  match cleanName person.name with
  | some (ln, fn) =>
      { first_name := some fn, last_name := some ln,
        positions := cleanPositions person.positions }
  | none => { positions := cleanPositions person.positions }

/-- The raw dataset: `count` is the externally asserted cardinality, used by
`cleanConsularData` only in diagnostics. -/
structure RawDataset where
  count : Int
  raw_people : List RawPerson
deriving DecidableEq, Repr

/-- The `clean_data` dict built by `cleanConsularData`. -/
structure CleanData where
  count : Nat
  people : List CleanPerson
  errors : List RawPerson
deriving DecidableEq, Repr

/-- One iteration of the loop in `cleanConsularData` (lines 45-54).
`if(clean_person['first_name'] and clean_person['last_name'])` subscripts the
dict: a missing key raises an uncaught `KeyError`, modelled as `none`; the
`and` evaluates `last_name` only when `first_name` is truthy (non-empty). -/
def cleanStep (acc : CleanData) (person : RawPerson) : Option CleanData :=
  let cp := cleanPerson person
  match cp.first_name with
  | none => none
  | some fn =>
      if !fn.isEmpty then
        match cp.last_name with
        | none => none
        | some ln =>
            if !ln.isEmpty then
              some { count := acc.count + 1, people := acc.people ++ [cp],
                     errors := acc.errors }
            else some { acc with errors := acc.errors ++ [person] }
      else some { acc with errors := acc.errors ++ [person] }

/-- The loop of `cleanConsularData` over `data['raw_people']`; an exception
aborts the whole run (`none`). -/
def cleanLoop : CleanData → List RawPerson → Option CleanData
  | acc, [] => some acc
  | acc, person :: rest =>
      match cleanStep acc person with
      | some acc2 => cleanLoop acc2 rest
      | none => none

/-- `cleanConsularData`: builds `clean_data` starting from
`count = 0, people = [], errors = []` and hands it to the persistence
collaborator (`names2json.save`); the prints and the comparison with
`data['count']` at lines 55-57 are diagnostics and touch no data.  We return
the dict the function saves; `none` models an uncaught exception. -/
def cleanConsularData (data : RawDataset) : Option CleanData :=
  cleanLoop ⟨0, [], []⟩ data.raw_people

/-! ### Basic lemmas about the embedding -/

/-- A truthy group participated in the match. -/
lemma isSome_of_pyTruthy {o : Option Str} (h : pyTruthy o = true) : o.isSome = true := by
  cases o <;> simp [pyTruthy] at *

/-- A participating non-empty group is truthy. -/
lemma pyTruthy_of_ne_nil {s : Str} (h : s ≠ []) : pyTruthy (some s) = true := by
  cases s <;> simp [pyTruthy] at *

/-- `full_position_parser.match` never fails, so `titleAndText` always sets a
title. -/
lemma titleAndText_fst_isSome (text : Str) : (titleAndText text).1.isSome = true := by
  unfold titleAndText
  cases h : splitFirst sepLit text with
  | none => simp [fullPositionMatch]
  | some pr =>
      obtain ⟨p0, r⟩ := pr
      by_cases hp : p0 = text <;> simp [hp, fullPositionMatch]

/-- `locFields` writes only the location keys. -/
lemma locFields_preserves (t : Str) (cp : CleanPos) :
    (locFields t cp).raw_position = cp.raw_position ∧
    (locFields t cp).title = cp.title ∧
    (locFields t cp).year_from = cp.year_from ∧
    (locFields t cp).year_to = cp.year_to ∧
    (locFields t cp).year_single = cp.year_single ∧
    (locFields t cp).year_text = cp.year_text := by
  unfold locFields
  cases locSearch t with
  | none => exact ⟨rfl, rfl, rfl, rfl, rfl, rfl⟩
  | some l =>
      dsimp only
      split
      · exact ⟨rfl, rfl, rfl, rfl, rfl, rfl⟩
      · split
        · exact ⟨rfl, rfl, rfl, rfl, rfl, rfl⟩
        · exact ⟨rfl, rfl, rfl, rfl, rfl, rfl⟩

/-- `yearFields` writes only the year keys. -/
lemma yearFields_preserves (t : Str) (cp : CleanPos) :
    (yearFields t cp).raw_position = cp.raw_position ∧
    (yearFields t cp).title = cp.title ∧
    (yearFields t cp).location = cp.location ∧
    (yearFields t cp).loc_text = cp.loc_text := by
  unfold yearFields
  cases yearSearch t with
  | none => exact ⟨rfl, rfl, rfl, rfl⟩
  | some y =>
      dsimp only
      split
      · exact ⟨rfl, rfl, rfl, rfl⟩
      · split
        · exact ⟨rfl, rfl, rfl, rfl⟩
        · split
          · exact ⟨rfl, rfl, rfl, rfl⟩
          · exact ⟨rfl, rfl, rfl, rfl⟩

/-- The `raw_position` key survives the whole per-position pipeline. -/
lemma cleanPosition_raw (p : Str) : (cleanPosition p).raw_position = p := by
  unfold cleanPosition
  rw [(locFields_preserves _ _).1, (yearFields_preserves _ _).1]

/-- The title of a cleaned position is the scrub of the extracted title. -/
lemma cleanPosition_title (p : Str) :
    (cleanPosition p).title = (titleAndText p).1.map scrubTitle := by
  unfold cleanPosition
  rw [(locFields_preserves _ _).2.1, (yearFields_preserves _ _).2.1]

/-- The guard `len(clean_pos) > 0` always holds: `raw_position` is a key. -/
lemma cpLen_pos (cp : CleanPos) : 0 < cpLen cp := by
  unfold cpLen
  omega

/-! ### Group population: every alternative of `year_parser` and
`location_parser` binds a (non-empty) named group. -/

/-- `\d{4}` captures a non-empty string. -/
lemma digits4_ne_nil {r d rest : Str} (h : digits4 r = some (d, rest)) : d ≠ [] := by
  match r with
  | [] => simp [digits4] at h
  | [a] => simp [digits4] at h
  | [a, b] => simp [digits4] at h
  | [a, b, c] => simp [digits4] at h
  | a :: b :: c :: e :: rest2 =>
      unfold digits4 at h
      dsimp only at h
      by_cases hd : (isDigitC a && isDigitC b && isDigitC c && isDigitC e) = true
      · rw [if_pos hd] at h
        injection h with h3
        injection h3 with h4 h5
        rw [← h4]
        simp
      · rw [if_neg hd] at h
        simp at h

/-- The `year_to` capture of the first alternative is non-empty. -/
lemma yearToFind_ne_nil : ∀ {r d : Str}, yearToFind r = some d → d ≠ [] := by
  intro r
  induction r with
  | nil => intro d h; simp [yearToFind] at h
  | cons c rest ih =>
      intro d h
      unfold yearToFind at h
      split at h
      · simp at h
      · cases hd : digits4 (c :: rest) with
        | none => rw [hd] at h; dsimp only at h; exact ih h
        | some pr =>
            obtain ⟨d0, after⟩ := pr
            rw [hd] at h
            dsimp only at h
            by_cases hc : closeOk after = true
            · rw [if_pos hc] at h
              cases h
              exact digits4_ne_nil hd
            · rw [if_neg hc] at h
              exact ih h

/-- The tail of the first alternative delivers a non-empty `year_to`. -/
lemma yearRangeTail_ne_nil {r d : Str} (h : yearRangeTail r = some d) : d ≠ [] := by
  unfold yearRangeTail at h
  cases hh : toHyphen r with
  | none => rw [hh] at h; simp at h
  | some after => rw [hh] at h; exact yearToFind_ne_nil h

/-- Both captures of the first alternative are non-empty. -/
lemma yearAlt1_ne_nil : ∀ {r d1 d2 : Str}, yearAlt1 r = some (d1, d2) → d1 ≠ [] ∧ d2 ≠ [] := by
  intro r
  induction r with
  | nil => intro d1 d2 h; simp [yearAlt1] at h
  | cons c rest ih =>
      intro d1 d2 h
      unfold yearAlt1 at h
      split at h
      · simp at h
      · cases hd : digits4 (c :: rest) with
        | none => rw [hd] at h; dsimp only at h; exact ih h
        | some pr =>
            obtain ⟨d0, after⟩ := pr
            rw [hd] at h
            dsimp only at h
            cases ht : yearRangeTail after with
            | none => rw [ht] at h; dsimp only at h; exact ih h
            | some dd =>
                rw [ht] at h
                dsimp only at h
                cases h
                exact ⟨digits4_ne_nil hd, yearRangeTail_ne_nil ht⟩

/-- The `complex_year` capture of the second alternative is non-empty. -/
lemma yearAlt2_ne_nil : ∀ {r d : Str}, yearAlt2 r = some d → d ≠ [] := by
  intro r
  induction r with
  | nil => intro d h; simp [yearAlt2] at h
  | cons c rest ih =>
      intro d h
      unfold yearAlt2 at h
      split at h
      · simp at h
      · cases hd : digits4 (c :: rest) with
        | none => rw [hd] at h; dsimp only at h; exact ih h
        | some pr =>
            obtain ⟨d0, after⟩ := pr
            rw [hd] at h
            dsimp only at h
            by_cases hc : closeOk after = true
            · rw [if_pos hc] at h
              cases h
              exact digits4_ne_nil hd
            · rw [if_neg hc] at h
              exact ih h

/-- The `simple_year` capture of the third alternative is non-empty. -/
lemma yearAlt3_ne_nil {r d : Str} (h : yearAlt3 r = some d) : d ≠ [] := by
  unfold yearAlt3 at h
  cases hd : digits4 r with
  | none => rw [hd] at h; simp at h
  | some pr =>
      obtain ⟨d0, after⟩ := pr
      rw [hd] at h
      dsimp only at h
      split at h
      · cases h; exact digits4_ne_nil hd
      · simp at h

/-- Any match of the full `year_parser` pattern populates (with truthy value)
the groups of one of its alternatives. -/
lemma yearTryAt_populated {s : Str} {g : YearGroups} (h : yearTryAt s = some g) :
    (pyTruthy g.year_from = true ∧ pyTruthy g.year_to = true) ∨
      pyTruthy g.simple_year = true ∨ pyTruthy g.complex_year = true := by
  match s with
  | [] => simp [yearTryAt] at h
  | c :: rest =>
      unfold yearTryAt at h
      dsimp only at h
      by_cases hc : c = '('
      · rw [if_pos hc] at h
        cases h1 : yearAlt1 rest with
        | some pr =>
            obtain ⟨d1, d2⟩ := pr
            rw [h1] at h
            dsimp only at h
            cases h
            obtain ⟨n1, n2⟩ := yearAlt1_ne_nil h1
            exact Or.inl ⟨pyTruthy_of_ne_nil n1, pyTruthy_of_ne_nil n2⟩
        | none =>
            rw [h1] at h
            dsimp only at h
            cases h2 : yearAlt2 rest with
            | some d =>
                rw [h2] at h
                dsimp only at h
                cases h
                exact Or.inr (Or.inr (pyTruthy_of_ne_nil (yearAlt2_ne_nil h2)))
            | none =>
                rw [h2] at h
                dsimp only at h
                cases h3 : yearAlt3 rest with
                | some d =>
                    rw [h3] at h
                    dsimp only at h
                    cases h
                    exact Or.inr (Or.inl (pyTruthy_of_ne_nil (yearAlt3_ne_nil h3)))
                | none => rw [h3] at h; simp at h
      · rw [if_neg hc] at h
        simp at h

/-- Any successful `year_parser.search` populates a named group. -/
lemma yearSearch_populated : ∀ {s : Str} {g : YearGroups}, yearSearch s = some g →
    (pyTruthy g.year_from = true ∧ pyTruthy g.year_to = true) ∨
      pyTruthy g.simple_year = true ∨ pyTruthy g.complex_year = true := by
  intro s
  induction s with
  | nil => intro g h; simp [yearSearch] at h
  | cons c rest ih =>
      intro g h
      unfold yearSearch at h
      cases ht : yearTryAt (c :: rest) with
      | some g2 => rw [ht] at h; dsimp only at h; cases h; exact yearTryAt_populated ht
      | none => rw [ht] at h; dsimp only at h; exact ih h

/-- The `open_location` capture is non-empty. -/
lemma locAlt1_ne_nil {b : Bool} {r w : Str} (h : locAlt1 b r = some w) : w ≠ [] := by
  unfold locAlt1 at h
  by_cases h0 : (b || cwsHead r) = true
  · rw [if_pos h0] at h
    dsimp only at h
    by_cases hg : (!((r.dropWhile isCWS).takeWhile isWordC).isEmpty &&
        locTerm ((r.dropWhile isCWS).dropWhile isWordC)) = true
    · rw [if_pos hg] at h
      cases h
      intro hw
      rw [hw] at hg
      simp at hg
    · rw [if_neg hg] at h
      simp at h
  · rw [if_neg h0] at h
    simp at h

/-- The `enclosed_location` capture is non-empty. -/
lemma locAlt2_ne_nil : ∀ {r w : Str}, locAlt2 r = some w → w ≠ [] := by
  intro r w h
  match r with
  | [] => simp [locAlt2] at h
  | c :: rest =>
      simp only [locAlt2] at h
      by_cases hc : c = '('
      · rw [if_pos hc] at h
        by_cases hg : (!(rest.takeWhile isWordC).isEmpty &&
            closeParenHead (rest.dropWhile isWordC)) = true
        · rw [if_pos hg] at h
          cases h
          intro hw
          rw [hw] at hg
          simp at hg
        · rw [if_neg hg] at h
          simp at h
      · rw [if_neg hc] at h
        simp at h

/-- Any successful `location_parser.search` populates a (truthy) named group. -/
lemma locSearchAux_populated : ∀ {s : Str} {b : Bool} {g : LocGroups},
    locSearchAux b s = some g →
    pyTruthy g.enclosed_location = true ∨ pyTruthy g.open_location = true := by
  intro s
  induction s with
  | nil =>
      intro b g h
      unfold locSearchAux at h
      cases h1 : locAlt1 b [] with
      | some w =>
          rw [h1] at h; dsimp only at h; cases h
          exact Or.inr (pyTruthy_of_ne_nil (locAlt1_ne_nil h1))
      | none =>
          rw [h1] at h
          dsimp only at h
          cases h2 : locAlt2 ([] : Str) with
          | some w =>
              rw [h2] at h; dsimp only at h; cases h
              exact Or.inl (pyTruthy_of_ne_nil (locAlt2_ne_nil h2))
          | none => rw [h2] at h; simp at h
  | cons c rest ih =>
      intro b g h
      unfold locSearchAux at h
      cases h1 : locAlt1 b (c :: rest) with
      | some w =>
          rw [h1] at h; dsimp only at h; cases h
          exact Or.inr (pyTruthy_of_ne_nil (locAlt1_ne_nil h1))
      | none =>
          rw [h1] at h
          dsimp only at h
          cases h2 : locAlt2 (c :: rest) with
          | some w =>
              rw [h2] at h; dsimp only at h; cases h
              exact Or.inl (pyTruthy_of_ne_nil (locAlt2_ne_nil h2))
          | none => rw [h2] at h; dsimp only at h; exact ih h

/-! ### Outcome exclusivity -/

/-- Exactly one of the three year outcomes of a position dict is present:
a single year, a `year_from`/`year_to` pair, or the `year_text` fallback. -/
def exactlyOneYearOutcome (cp : CleanPos) : Prop :=
  (cp.year_single.isSome = true ∧ cp.year_from = none ∧ cp.year_to = none ∧
      cp.year_text = none) ∨
    (cp.year_from.isSome = true ∧ cp.year_to.isSome = true ∧ cp.year_single = none ∧
      cp.year_text = none) ∨
    (cp.year_text.isSome = true ∧ cp.year_single = none ∧ cp.year_from = none ∧
      cp.year_to = none)

/-- Exactly one of the two location outcomes of a position dict is present:
a `location` or the `loc_text` fallback. -/
def exactlyOneLocOutcome (cp : CleanPos) : Prop :=
  (cp.location.isSome = true ∧ cp.loc_text = none) ∨
    (cp.loc_text.isSome = true ∧ cp.location = none)

/-- The year branch of `cleanPositions` sets exactly one year outcome when the
incoming dict has none. -/
lemma yearFields_exclusive (t : Str) (cp : CleanPos) (h1 : cp.year_single = none)
    (h2 : cp.year_from = none) (h3 : cp.year_to = none) (h4 : cp.year_text = none) :
    exactlyOneYearOutcome (yearFields t cp) := by
  unfold yearFields exactlyOneYearOutcome
  cases hy : yearSearch t with
  | none => exact Or.inr (Or.inr ⟨rfl, h1, h2, h3⟩)
  | some y =>
      dsimp only
      by_cases c1 : (pyTruthy y.year_from && pyTruthy y.year_to) = true
      · rw [if_pos c1]
        obtain ⟨t1, t2⟩ := Bool.and_eq_true .. ▸ c1
        exact Or.inr (Or.inl ⟨isSome_of_pyTruthy t1, isSome_of_pyTruthy t2, h1, h4⟩)
      · rw [if_neg c1]
        by_cases c2 : pyTruthy y.simple_year = true
        · rw [if_pos c2]
          exact Or.inl ⟨isSome_of_pyTruthy c2, h2, h3, h4⟩
        · rw [if_neg c2]
          by_cases c3 : pyTruthy y.complex_year = true
          · rw [if_pos c3]
            exact Or.inl ⟨isSome_of_pyTruthy c3, h2, h3, h4⟩
          · rw [if_neg c3]
            exact Or.inr (Or.inr ⟨rfl, h1, h2, h3⟩)

/-- The location branch of `cleanPositions` sets exactly one location outcome
when the incoming dict has none. -/
lemma locFields_exclusive (t : Str) (cp : CleanPos) (h1 : cp.location = none)
    (h2 : cp.loc_text = none) : exactlyOneLocOutcome (locFields t cp) := by
  unfold locFields exactlyOneLocOutcome
  cases hl : locSearch t with
  | none => exact Or.inr ⟨rfl, h1⟩
  | some l =>
      dsimp only
      by_cases c1 : pyTruthy l.enclosed_location = true
      · rw [if_pos c1]
        exact Or.inl ⟨isSome_of_pyTruthy c1, h2⟩
      · rw [if_neg c1]
        by_cases c2 : pyTruthy l.open_location = true
        · rw [if_pos c2]
          exact Or.inl ⟨isSome_of_pyTruthy c2, h2⟩
        · rw [if_neg c2]
          exact Or.inr ⟨rfl, h1⟩

/-! ### Dataset loop invariants -/

/-- Each loop iteration of `cleanConsularData` that completes appends one
record to exactly one of `people`/`errors` and keeps `count` in step with
`people`. -/
lemma cleanStep_shape {acc out : CleanData} {person : RawPerson}
    (h : cleanStep acc person = some out) :
    out.people.length + out.errors.length = acc.people.length + acc.errors.length + 1 ∧
      (acc.count = acc.people.length → out.count = out.people.length) := by
  unfold cleanStep at h
  dsimp only at h
  cases h1 : (cleanPerson person).first_name with
  | none => rw [h1] at h; simp at h
  | some fn =>
      rw [h1] at h
      dsimp only at h
      by_cases hf : (!fn.isEmpty) = true
      · rw [if_pos hf] at h
        cases h2 : (cleanPerson person).last_name with
        | none => rw [h2] at h; simp at h
        | some ln =>
            rw [h2] at h
            dsimp only at h
            by_cases hl : (!ln.isEmpty) = true
            · rw [if_pos hl] at h
              cases h
              refine ⟨by simp; omega, fun hc => by simp [hc]⟩
            · rw [if_neg hl] at h
              cases h
              refine ⟨by simp; omega, fun hc => by simp [hc]⟩
      · rw [if_neg hf] at h
        cases h
        refine ⟨by simp; omega, fun hc => by simp [hc]⟩

/-- Partition invariant of the loop of `cleanConsularData`. -/
lemma cleanLoop_partition : ∀ (l : List RawPerson) (acc out : CleanData),
    cleanLoop acc l = some out →
    out.people.length + out.errors.length =
      acc.people.length + acc.errors.length + l.length := by
  intro l
  induction l with
  | nil =>
      intro acc out h
      unfold cleanLoop at h
      cases h
      simp
  | cons person rest ih =>
      intro acc out h
      unfold cleanLoop at h
      cases hs : cleanStep acc person with
      | none => rw [hs] at h; simp at h
      | some acc2 =>
          rw [hs] at h
          dsimp only at h
          have h1 := ih acc2 out h
          have h2 := (cleanStep_shape hs).1
          simp only [List.length_cons]
          omega

/-- Count invariant of the loop of `cleanConsularData`. -/
lemma cleanLoop_count : ∀ (l : List RawPerson) (acc out : CleanData),
    cleanLoop acc l = some out → acc.count = acc.people.length →
    out.count = out.people.length := by
  intro l
  induction l with
  | nil =>
      intro acc out h hc
      unfold cleanLoop at h
      cases h
      exact hc
  | cons person rest ih =>
      intro acc out h hc
      unfold cleanLoop at h
      cases hs : cleanStep acc person with
      | none => rw [hs] at h; simp at h
      | some acc2 =>
          rw [hs] at h
          dsimp only at h
          exact ih acc2 out h ((cleanStep_shape hs).2 hc)

/-- Transport of the year-outcome exclusivity across the location pass. -/
lemma exactlyOneYearOutcome_locFields (t : Str) (cp : CleanPos)
    (h : exactlyOneYearOutcome cp) : exactlyOneYearOutcome (locFields t cp) := by
  obtain ⟨_, _, hp3, hp4, hp5, hp6⟩ := locFields_preserves t cp
  unfold exactlyOneYearOutcome at h ⊢
  rw [hp3, hp4, hp5, hp6]
  exact h

/-- The `year_text` key is present exactly when `year_parser.search` failed on
the working text (the fallback inside the successful-search branch is dead:
every match populates a truthy group). -/
lemma yearFields_year_text (t : Str) (cp : CleanPos) (h : cp.year_text = none) :
    (yearFields t cp).year_text.isSome = (yearSearch t).isNone := by
  unfold yearFields
  cases hy : yearSearch t with
  | none => simp
  | some y =>
      dsimp only
      by_cases c1 : (pyTruthy y.year_from && pyTruthy y.year_to) = true
      · rw [if_pos c1]
        simp [h]
      · rw [if_neg c1]
        by_cases c2 : pyTruthy y.simple_year = true
        · rw [if_pos c2]
          simp [h]
        · rw [if_neg c2]
          by_cases c3 : pyTruthy y.complex_year = true
          · rw [if_pos c3]
            simp [h]
          · exfalso
            rcases yearSearch_populated hy with ⟨t1, t2⟩ | hs | hc
            · exact c1 (by rw [t1, t2]; rfl)
            · exact c2 hs
            · exact c3 hc

/-- Population of `location_parser.search`, stated on `locSearch`. -/
lemma locSearch_populated {s : Str} {g : LocGroups} (h : locSearch s = some g) :
    pyTruthy g.enclosed_location = true ∨ pyTruthy g.open_location = true := by
  unfold locSearch at h
  exact locSearchAux_populated h

/-- The `loc_text` key is present exactly when `location_parser.search` failed
on the working text. -/
lemma locFields_loc_text (t : Str) (cp : CleanPos) (h : cp.loc_text = none) :
    (locFields t cp).loc_text.isSome = (locSearch t).isNone := by
  unfold locFields
  cases hl : locSearch t with
  | none => simp
  | some l =>
      dsimp only
      by_cases c1 : pyTruthy l.enclosed_location = true
      · rw [if_pos c1]
        simp [h]
      · rw [if_neg c1]
        by_cases c2 : pyTruthy l.open_location = true
        · rw [if_pos c2]
          simp [h]
        · exfalso
          rcases locSearch_populated hl with he | ho
          · exact c1 he
          · exact c2 ho

/-! ### The claims -/

/-- C1 (code bug): a raw person whose name does not match the `"Last, First"`
shape (here `"SmithJohn"`, no comma) makes `cleanConsularData` raise an
uncaught `KeyError` at `clean_person['first_name']` instead of routing the
record to `errors`: the run aborts with no output at all. -/
theorem unparsed_name_raises :
    cleanConsularData ⟨1, [⟨"SmithJohn".toList, []⟩]⟩ = none := by decide

/-- C2 (code bug): on `"Ambassador, Paris (1990-1994)"` the comma-split branch
of the title extraction never fires — `text.split(r'[^(),]*?,')` is a literal
`str.split` whose separator (the regex source text) does not occur — so the
working text stays the entire original string, not the remainder after the
comma; the title still comes out as `"Ambassador"` via the fallback pattern. -/
theorem split_branch_never_taken :
    titleAndText ("Ambassador, Paris (1990-1994)".toList) =
      (some ("Ambassador".toList), "Ambassador, Paris (1990-1994)".toList) ∧
      splitFirst sepLit ("Ambassador, Paris (1990-1994)".toList) = none ∧
      ("Ambassador, Paris (1990-1994)".toList : Str) ≠ (" Paris (1990-1994)".toList) := by
  decide

/-- C3 counterexample: `"Officer (Berlin)"` does not get the enclosed location
`"Berlin"` — the open-form alternative matches first. -/
theorem officer_berlin_not_enclosed :
    (cleanPosition ("Officer (Berlin)".toList)).location ≠ some ("Berlin".toList) := by
  decide

/-- When the location search settles on the enclosed alternative, the
open-form alternative failed at the start of the string and at every suffix
position at or before the one where the parenthesized word matched (the
`isStart` flag of `locAlt1` is `true` only for the whole string, exactly as in
the search). -/
lemma locSearchAux_enclosed : ∀ (s : Str) (b : Bool) (g : LocGroups),
    locSearchAux b s = some g → pyTruthy g.enclosed_location = true →
    ∃ t : Str, t <:+ s ∧ locAlt2 t = g.enclosed_location ∧ locAlt1 b s = none ∧
      ∀ u : Str, u <:+ s → u ≠ s → t <:+ u → locAlt1 false u = none := by
  intro s
  induction s with
  | nil =>
      intro b g h htr
      unfold locSearchAux at h
      cases h1 : locAlt1 b [] with
      | some w =>
          rw [h1] at h
          dsimp only at h
          cases h
          simp [pyTruthy] at htr
      | none =>
          rw [h1] at h
          dsimp only at h
          rw [show locAlt2 [] = (none : Option Str) from rfl] at h
          simp at h
  | cons c rest ih =>
      intro b g h htr
      unfold locSearchAux at h
      cases h1 : locAlt1 b (c :: rest) with
      | some w =>
          rw [h1] at h
          dsimp only at h
          cases h
          simp [pyTruthy] at htr
      | none =>
          rw [h1] at h
          dsimp only at h
          cases h2 : locAlt2 (c :: rest) with
          | some w =>
              rw [h2] at h
              dsimp only at h
              cases h
              refine ⟨c :: rest, List.suffix_rfl, h2, rfl, ?_⟩
              intro u hus hneq htu
              exact absurd
                (List.IsSuffix.eq_of_length hus
                  (le_antisymm hus.length_le htu.length_le)) hneq
          | none =>
              rw [h2] at h
              dsimp only at h
              obtain ⟨t, hts, ha2, h1rest, hrest⟩ := ih false g h htr
              refine ⟨t, hts.trans (List.suffix_cons c rest), ha2, rfl, ?_⟩
              intro u hus hneq htu
              rcases List.suffix_cons_iff.mp hus with heq | hur
              · exact absurd heq hneq
              · by_cases hu : u = rest
                · rw [hu]
                  exact h1rest
                · exact hrest u hur hu htu

/-- C3 (amended): the `open_location` alternative of `location_parser` is
tried first at each position and the search is leftmost-first, so an open-form
candidate matching at or before the parenthesized word wins; the enclosed word
is chosen only when the open-form alternative fails at the start and at every
suffix position at or before the parenthesized word.  In particular
`"Officer (Berlin)"` yields location `"Officer"` and
`"Deputy, Rome (1990)"` yields the mid-string open-form `"Rome"`, not an
enclosed candidate. -/
theorem open_form_wins_over_enclosed :
    (∀ (s w : Str), locAlt1 true s = some w → locSearch s = some ⟨some w, none⟩) ∧
      (∀ (s : Str) (g : LocGroups), locSearch s = some g →
          pyTruthy g.enclosed_location = true →
          ∃ t : Str, t <:+ s ∧ locAlt2 t = g.enclosed_location ∧
            locAlt1 true s = none ∧
            ∀ u : Str, u <:+ s → u ≠ s → t <:+ u → locAlt1 false u = none) ∧
      (cleanPosition ("Officer (Berlin)".toList)).location = some ("Officer".toList) ∧
      (cleanPosition ("Deputy, Rome (1990)".toList)).location = some ("Rome".toList) := by
  refine ⟨?_, ?_, by decide, by decide⟩
  · intro s w h
    match s with
    | [] =>
        rw [show locAlt1 true [] = (none : Option Str) from rfl] at h
        simp at h
    | c :: rest =>
        unfold locSearch locSearchAux
        rw [h]
  · intro s g h htr
    unfold locSearch at h
    exact locSearchAux_enclosed s true g h htr

/-- C3 witness: at `"Officer (Berlin)"` the open-form alternative matches at
the start and the search returns it; at `"(Berlin)"` the search settles on the
enclosed word and the theorem yields the failure of the open-form alternative
at and before it. -/
theorem open_form_wins_over_enclosed_witness :
    locSearch ("Officer (Berlin)".toList) = some ⟨some ("Officer".toList), none⟩ ∧
      (∃ t : Str, t <:+ ("(Berlin)".toList) ∧
          locAlt2 t = some ("Berlin".toList) ∧
          locAlt1 true ("(Berlin)".toList) = none ∧
          ∀ u : Str, u <:+ ("(Berlin)".toList) → u ≠ ("(Berlin)".toList) →
            t <:+ u → locAlt1 false u = none) :=
  ⟨open_form_wins_over_enclosed.1 ("Officer (Berlin)".toList) ("Officer".toList)
      (by decide),
   open_form_wins_over_enclosed.2.1 ("(Berlin)".toList) ⟨none, some ("Berlin".toList)⟩
      (by decide) (by decide)⟩

/-- C4: every cleaned position carries exactly one year outcome (single year,
`year_from`/`year_to` pair, or `year_text` fallback) and exactly one location
outcome (`location` or `loc_text` fallback). -/
theorem position_outcomes_exclusive (p : Str) :
    exactlyOneYearOutcome (cleanPosition p) ∧ exactlyOneLocOutcome (cleanPosition p) := by
  unfold cleanPosition
  constructor
  · exact exactlyOneYearOutcome_locFields _ _ (yearFields_exclusive _ _ rfl rfl rfl rfl)
  · exact locFields_exclusive _ _ ((yearFields_preserves _ _).2.2.1.trans rfl)
      ((yearFields_preserves _ _).2.2.2.trans rfl)

/-- C5 counterexample: a dataset containing a person whose name has no comma
(`"NoComma"`) produces no output at all — the run aborts with a `KeyError` —
so the people/errors partition equality has no output to hold of. -/
theorem partition_fails_on_crash :
    cleanConsularData ⟨2, [⟨"Jones, Bob".toList, []⟩, ⟨"NoComma".toList, []⟩]⟩ = none := by
  decide

/-- C5 (amended): on every dataset for which `cleanConsularData` completes,
each raw person lands in exactly one of `people`/`errors`:
`len(people) + len(errors) = len(raw_people)`. -/
theorem counts_partition_on_success (d : RawDataset) (out : CleanData)
    (h : cleanConsularData d = some out) :
    out.people.length + out.errors.length = d.raw_people.length := by
  unfold cleanConsularData at h
  have h2 := cleanLoop_partition d.raw_people ⟨0, [], []⟩ out h
  simpa using h2

/-- C5 witness: a one-person dataset with a well-formed name completes and
partitions. -/
theorem counts_partition_on_success_witness :
    ([cleanPerson ⟨"Doe, Jane".toList, []⟩].length : Nat) + ([] : List RawPerson).length =
      [RawPerson.mk ("Doe, Jane".toList) []].length :=
  counts_partition_on_success ⟨1, [⟨"Doe, Jane".toList, []⟩]⟩
    ⟨1, [cleanPerson ⟨"Doe, Jane".toList, []⟩], []⟩ (by decide)

/-- C6: whenever `cleanConsularData` produces a dataset, its `count` equals
the length of its `people` list, and the externally asserted `data['count']`
never influences the output (it is only compared in a print diagnostic). -/
theorem count_tracks_people :
    (∀ (d : RawDataset) (out : CleanData), cleanConsularData d = some out →
        out.count = out.people.length) ∧
      (∀ (c1 c2 : Int) (l : List RawPerson),
        cleanConsularData ⟨c1, l⟩ = cleanConsularData ⟨c2, l⟩) := by
  constructor
  · intro d out h
    exact cleanLoop_count d.raw_people ⟨0, [], []⟩ out h rfl
  · intro c1 c2 l
    rfl

/-- C6 witness: a concrete dataset, with a deliberately wrong asserted count,
still yields `count = len(people)`. -/
theorem count_tracks_people_witness :
    (CleanData.mk 1 [cleanPerson ⟨"Lee, Ann".toList, []⟩] []).count =
      (CleanData.mk 1 [cleanPerson ⟨"Lee, Ann".toList, []⟩] []).people.length :=
  count_tracks_people.1 ⟨5, [⟨"Lee, Ann".toList, []⟩]⟩
    ⟨1, [cleanPerson ⟨"Lee, Ann".toList, []⟩], []⟩ (by decide)

/-- C7: a title containing the defect marker `'no-label'` (literal,
case-sensitive substring test) is replaced by exactly the sentinel
`"NO POSITION TITLE AVAILABLE"`; any other title is left unchanged. -/
theorem title_scrub_exact (p t : Str) (h : (titleAndText p).1 = some t) :
    (containsSub noLabelMarker t = true →
        (cleanPosition p).title = some noTitleSentinel) ∧
      (containsSub noLabelMarker t = false → (cleanPosition p).title = some t) := by
  have ht := cleanPosition_title p
  rw [h] at ht
  refine ⟨fun hm => ?_, fun hm => ?_⟩
  · rw [ht]
    simp [scrubTitle, hm]
  · rw [ht]
    simp [scrubTitle, hm]

/-- C7 witness: a marker-bearing title is scrubbed; an ordinary one is kept. -/
theorem title_scrub_exact_witness :
    (cleanPosition ("no-label stuff".toList)).title = some noTitleSentinel ∧
      (cleanPosition ("Consul".toList)).title = some ("Consul".toList) :=
  ⟨(title_scrub_exact ("no-label stuff".toList) ("no-label stuff".toList)
      (by decide)).1 (by decide),
   (title_scrub_exact ("Consul".toList) ("Consul".toList) (by decide)).2 (by decide)⟩

/-- C8: `cleanPositions` returns exactly one entry per raw position string, in
input order, each carrying the original string in `raw_position`; no position
is ever dropped (the `len(clean_pos) > 0` guard always holds). -/
theorem cleanPositions_raw_identity (l : List Str) :
    (cleanPositions l).map CleanPos.raw_position = l := by
  induction l with
  | nil => rfl
  | cons p rest ih =>
      unfold cleanPositions
      rw [if_pos (cpLen_pos (cleanPosition p))]
      rw [List.map_cons, cleanPosition_raw, ih]

/-- C9 counterexample: on `"(Berlin)"` — whose leading title-run is empty —
the title key is nonetheless set (to the empty string): the title regex
matches the empty run and the match object is truthy. -/
theorem paren_start_title_set :
    (cleanPosition ("(Berlin)".toList)).title ≠ none := by decide

/-- C9 (amended): when the leading run of non-digit, non-comma, non-`(`
characters is empty (and the string does not contain the literal split
separator), the title key is set to the empty string rather than left absent. -/
theorem no_title_run_empty_title (p : Str) (h1 : p.takeWhile isTitleChar = [])
    (h2 : splitFirst sepLit p = none) : (cleanPosition p).title = some [] := by
  have ht := cleanPosition_title p
  have hfst : (titleAndText p).1 = some [] := by
    unfold titleAndText
    rw [h2]
    simp [fullPositionMatch, h1]
  rw [hfst] at ht
  rw [ht]
  simp [scrubTitle, (by decide : containsSub noLabelMarker [] = false)]

/-- C9 witness: `"(Vienna)"` starts with `(`, so its title is the empty
string. -/
theorem no_title_run_empty_title_witness :
    (cleanPosition ("(Vienna)".toList)).title = some [] :=
  no_title_run_empty_title ("(Vienna)".toList) (by decide) (by decide)

/-- C10: the raw-text fallbacks are taken exactly when the corresponding regex
search fails on the working text: whenever `year_parser` (resp.
`location_parser`) matches, one of its named groups is populated, so the
fallback assignments inside the successful-match branches are unreachable and
`year_text`/`loc_text` appear only on total search failure. -/
theorem fallback_iff_search_fails (p : Str) :
    (cleanPosition p).year_text.isSome = (yearSearch (titleAndText p).2).isNone ∧
      (cleanPosition p).loc_text.isSome = (locSearch (titleAndText p).2).isNone := by
  unfold cleanPosition
  constructor
  · rw [(locFields_preserves _ _).2.2.2.2.2]
    exact yearFields_year_text _ _ rfl
  · exact locFields_loc_text _ _ ((yearFields_preserves _ _).2.2.2.trans rfl)

end StateRe
